import Mathlib

/-!
Shallow embedding of `src/crawlers/web_crawler.py` (class `DFSWebCrawler`).

Conventions of the embedding:
* Pure Python functions become Lean functions; the crawler's mutable object
  state becomes an explicit `CrawlerState` record threaded through steps.
* The asyncio task set is modelled as a FIFO list of pending `(url, depth)`
  tasks executed one at a time: every fetch is guarded by a per-origin
  `asyncio.Lock` and the event loop is single-threaded, so a sequential
  interleaving is a faithful execution of the source for the properties
  below (which concern per-task effects and the scheduler's rescan step,
  not cross-task races).
* Library calls that are external to the repository are modelled from their
  documented behaviour: `urllib.parse.urlsplit` / `urljoin` are translated
  below (restricted to URLs without `;` path parameters, which is the only
  form the claims exercise), BeautifulSoup parsing is modelled by an
  abstract already-parsed `HtmlDoc` (parsing is deterministic, so cached
  content is stored in parsed form), and the network is a deterministic
  oracle `Web`.
* Timestamps are integer seconds; `datetime.now() - fromisoformat t <
  timedelta(hours 24)` becomes `now - t < 86400` over `Int`.
-/

/-! ## Character and string helpers (List Char level) -/

/-- Lowercase every character, as Python `str.lower` does on ASCII. -/
def lowerChars (l : List Char) : List Char := l.map Char.toLower

/-- Does the second list occur at the head of the first? -/
def startsWithChars : List Char → List Char → Bool
  | _, [] => true
  | [], _ :: _ => false
  | c :: cs, d :: ds => c == d && startsWithChars cs ds

/-- Does `sub` occur anywhere inside `l`?  Models Python `sub in s`. -/
def hasSubChars (l sub : List Char) : Bool :=
  match l with
  | [] => sub.isEmpty
  | _ :: cs => startsWithChars (l) sub || hasSubChars cs sub

/-- Python `sub in s` on strings. -/
def strContains (s sub : String) : Bool := hasSubChars s.data sub.data

/-- Python `s.endswith(suffix)`. -/
def endsWithChars (l suf : List Char) : Bool :=
  startsWithChars l.reverse suf.reverse

/-- Lowercased copy of a string (Python `s.lower()` on ASCII input). -/
def lowerStr (s : String) : String := ⟨lowerChars s.data⟩

/-- Python `s.startswith(pre)`. -/
def strStartsWith (s pre : String) : Bool := startsWithChars s.data pre.data

/-- Split a character list at every character satisfying `p`; empty pieces
are kept, as in Python `s.split(sep)`. -/
def splitWhen (p : Char → Bool) : List Char → List (List Char)
  | [] => [[]]
  | c :: cs =>
    let r := splitWhen p cs
    if p c then [] :: r
    else
      match r with
      | [] => [[c]]
      | h :: t => (c :: h) :: t

/-- Python `s.split('/')`. -/
def splitSlash (s : String) : List String :=
  (splitWhen (fun c => c == '/') s.data).map String.mk

/-- Python `sep.join(l)`. -/
def joinWith (sep : String) : List String → String
  | [] => ""
  | [a] => a
  | a :: rest => a ++ sep ++ joinWith sep rest

/-- Drop leading whitespace characters. -/
def dropLeadingWs : List Char → List Char
  | [] => []
  | c :: cs => if c.isWhitespace then dropLeadingWs cs else c :: cs

/-- Python `s.strip()` (ASCII whitespace). -/
def pyStrip (s : String) : String :=
  ⟨(dropLeadingWs (dropLeadingWs s.data).reverse).reverse⟩

/-- Python `s.split()` with no separator: split on whitespace runs and
drop the empty pieces; `len(text.split())` is the crawler's word count. -/
def pythonWords (s : String) : List String :=
  ((splitWhen Char.isWhitespace s.data).map String.mk).filter (fun w => w ≠ "")

/-- Split a character list at the first character satisfying `p`:
returns the part strictly before it and the remainder starting with it
(or `([], l)` style totals when absent). -/
def splitAtFirst (p : Char → Bool) : List Char → List Char × List Char
  | [] => ([], [])
  | c :: cs =>
    if p c then ([], c :: cs)
    else
      let r := splitAtFirst p cs
      (c :: r.1, r.2)

/-! ## Model of `urllib.parse` (external library used by the source)

`urlsplit`/`urlunsplit`/`urljoin` are translated from CPython's
`urllib/parse.py` (the functions the crawler calls through `urlparse` and
`urljoin`), restricted to URLs without `;` path parameters. -/

/-- The five components `urllib.parse.urlsplit` returns. -/
structure SplitUrl where
  scheme : String
  netloc : String
  path : String
  query : String
  fragment : String
deriving DecidableEq

/-- Characters allowed in a URL scheme after the leading letter. -/
def isSchemeChar (c : Char) : Bool :=
  c.isAlpha || c.isDigit || c == '+' || c == '-' || c == '.'

/-- Is the first character an (ASCII) letter? -/
def headIsAlpha : List Char → Bool
  | [] => false
  | c :: _ => c.isAlpha

/-- Model of `urllib.parse.urlsplit url scheme`: split off `scheme:` (when
the prefix before the first `:` is a wellformed scheme, lowercasing it),
then `//netloc` up to the next `/`, `?` or `#`, then the `#fragment`, then
the `?query`; what remains is the path.  `defaultScheme` is the `scheme`
argument used when the URL carries none. -/
def urlsplit (url : String) (defaultScheme : String) : SplitUrl :=
  let l := url.data
  let schemeRest : List Char × List Char :=
    let pre := splitAtFirst (fun c => c == ':') l
    match pre.2 with
    | ':' :: tail =>
      if pre.1 ≠ [] ∧ headIsAlpha pre.1 = true ∧ pre.1.all isSchemeChar then
        (lowerChars pre.1, tail)
      else (defaultScheme.data, l)
    | _ => (defaultScheme.data, l)
  let scheme := schemeRest.1
  let netlocRest : List Char × List Char :=
    match schemeRest.2 with
    | '/' :: '/' :: t =>
      splitAtFirst (fun c => c == '/' || c == '?' || c == '#') t
    | other => ([], other)
  let fragSplit :=
    let s := splitAtFirst (fun c => c == '#') netlocRest.2
    match s.2 with
    | '#' :: t => (s.1, t)
    | _ => (s.1, ([] : List Char))
  let querySplit :=
    let s := splitAtFirst (fun c => c == '?') fragSplit.1
    match s.2 with
    | '?' :: t => (s.1, t)
    | _ => (s.1, ([] : List Char))
  ⟨⟨scheme⟩, ⟨netlocRest.1⟩, ⟨querySplit.1⟩, ⟨querySplit.2⟩, ⟨fragSplit.2⟩⟩

/-- Model of `urllib.parse.urlunsplit`. -/
def urlunsplit (u : SplitUrl) : String :=
  let netpart :=
    if u.netloc ≠ "" ∨ (u.path ≠ "" ∧ strStartsWith u.path "//" = true) then
      let p := if u.path ≠ "" ∧ ¬ strStartsWith u.path "/" = true then "/" ++ u.path
               else u.path
      "//" ++ u.netloc ++ p
    else u.path
  let s1 := if u.scheme ≠ "" then u.scheme ++ ":" ++ netpart else netpart
  let s2 := if u.query ≠ "" then s1 ++ "?" ++ u.query else s1
  if u.fragment ≠ "" then s2 ++ "#" ++ u.fragment else s2

/-- `urllib.parse.uses_relative`. -/
def uses_relative : List String :=
  ["", "ftp", "http", "gopher", "nntp", "imap", "wais", "file", "https",
   "shttp", "mms", "prospero", "rtsp", "rtspu", "sftp", "svn", "svn+ssh",
   "ws", "wss"]

/-- `urllib.parse.uses_netloc`. -/
def uses_netloc : List String :=
  ["", "ftp", "http", "gopher", "nntp", "telnet", "imap", "wais", "file",
   "mms", "https", "shttp", "snews", "prospero", "rtsp", "rtspu", "rsync",
   "svn", "svn+ssh", "sftp", "nfs", "git", "git+ssh", "ws", "wss",
   "itms-services"]

/-- Drop empty segments except in the final position (Python's
`segments[1:-1] = filter(None, segments[1:-1])` applied to the tail). -/
def keepLastFilterEmpty : List String → List String
  | [] => []
  | [a] => [a]
  | a :: b :: rest =>
    if a = "" then keepLastFilterEmpty (b :: rest)
    else a :: keepLastFilterEmpty (b :: rest)

/-- RFC 3986 dot-segment resolution as CPython implements it:
`..` pops (popping an empty stack is a no-op), `.` is skipped. -/
def resolveSegs (segs : List String) : List String :=
  segs.foldl
    (fun acc seg =>
      if seg = ".." then acc.dropLast
      else if seg = "." then acc
      else acc ++ [seg]) []

/-- Model of `urllib.parse.urljoin base url` (no `;` path parameters). -/
def urljoin (base url : String) : String :=
  if base = "" then url
  else if url = "" then base
  else
    let b := urlsplit base ""
    let u := urlsplit url b.scheme
    if u.scheme ≠ b.scheme ∨ u.scheme ∉ uses_relative then url
    else if u.scheme ∈ uses_netloc ∧ u.netloc ≠ "" then urlunsplit u
    else
      let u := if u.scheme ∈ uses_netloc then { u with netloc := b.netloc } else u
      if u.path = "" then
        urlunsplit { u with path := b.path,
                            query := if u.query = "" then b.query else u.query }
      else
        let base_parts :=
          let bp := splitSlash b.path
          if bp.getLastD "" ≠ "" then bp.dropLast else bp
        let segments :=
          if strStartsWith u.path "/" then splitSlash u.path
          else
            match base_parts ++ splitSlash u.path with
            | [] => []
            | a :: rest => a :: keepLastFilterEmpty rest
        let resolved := resolveSegs segments
        let resolved :=
          if segments.getLastD "" = "." ∨ segments.getLastD "" = ".."
          then resolved ++ [""] else resolved
        let joined := joinWith "/" resolved
        urlunsplit { u with path := if joined = "" then "/" else joined }

/-! ## URL predicates of `DFSWebCrawler`

Translated from the static methods `is_valid_url`, `is_valid_image_url`
and from `should_crawl_url` (src/crawlers/web_crawler.py lines 401-406,
440-450). -/

/-- `DFSWebCrawler.is_valid_url`: `urlparse(url)` and require both
`result.scheme` and `result.netloc` to be truthy (nonempty). -/
def is_valid_url (url : String) : Bool :=
  let result := urlsplit url ""
  result.scheme != "" && result.netloc != ""

/-- The `skip_domains` set of `should_crawl_url`. -/
def skip_domains : List String :=
  ["facebook.com", "twitter.com", "instagram.com", "ads.", "analytics.",
   "tracker."]

/-- `DFSWebCrawler.should_crawl_url`: reject when any skip-domain string
occurs inside `urlparse(url).netloc`. -/
def should_crawl_url (url : String) : Bool :=
  let parsed := urlsplit url ""
  !(skip_domains.any (fun domain => strContains parsed.netloc domain))

/-- The image extension list of `is_valid_image_url`. -/
def image_extensions : List String := [".jpg", ".jpeg", ".png", ".gif", ".webp"]

/-- `DFSWebCrawler.is_valid_image_url`: `url.lower().endswith(ext)` for
one of the image extensions. -/
def is_valid_image_url (url : String) : Bool :=
  image_extensions.any (fun ext => endsWithChars (lowerChars url.data) ext.data)

/-- `urlparse(url).netloc`, the crawler's politeness domain for a URL. -/
def urlDomain (url : String) : String := (urlsplit url "").netloc

/-! ## HTML documents (BeautifulSoup adapter)

BeautifulSoup is an external library; a parsed document is modelled by
exactly the views the crawler reads: the `href` of each anchor element,
the `src` of each image element, and the text of each paragraph element
remaining after `extract_text` decomposes script/style/nav/header/footer
subtrees.  Parsing a stored HTML string is deterministic, so cached page
content is stored in this parsed form. -/

/-- A parsed HTML document, as the crawler observes it. -/
structure HtmlDoc where
  anchors : List (Option String)
  imgs : List (Option String)
  paragraphs : List String
deriving DecidableEq

/-- `DFSWebCrawler.extract_text`: join the stripped text of every
paragraph element with single spaces (after removal of
script/style/nav/header/footer subtrees, reflected in `paragraphs`). -/
def extract_text (doc : HtmlDoc) : String :=
  joinWith " " (doc.paragraphs.map pyStrip)

/-- One anchor of `extract_links`: take `href` when truthy, resolve with
`urljoin(base_url, href)`, keep when `is_valid_url`, `should_crawl_url`
and not already visited. -/
def keepLink (base_url : String) (visited : List String)
    (href : Option String) : Option String :=
  match href with
  | none => none
  | some h =>
    if h = "" then none
    else
      let full_url := urljoin base_url h
      if is_valid_url full_url = true ∧ should_crawl_url full_url = true ∧
          full_url ∉ visited
      then some full_url else none

/-- `DFSWebCrawler.extract_links`: filter every anchor through
`keepLink`. -/
def extract_links (doc : HtmlDoc) (base_url : String)
    (visited : List String) : List String :=
  doc.anchors.filterMap (keepLink base_url visited)

/-! ## Output pipeline: bounded queues, records, log -/

/-- A Python `queue.Queue(maxsize)`: bounded FIFO; the core only ever
appends. -/
structure BQueue (α : Type) where
  maxsize : Nat
  items : List α
deriving DecidableEq

/-- `Queue.full()`: `0 < maxsize <= qsize()`. -/
def BQueue.full {α : Type} (q : BQueue α) : Bool :=
  decide (0 < q.maxsize ∧ q.maxsize ≤ q.items.length)

/-- `Queue.put` in the non-full case the crawler guards for. -/
def BQueue.put {α : Type} (q : BQueue α) (a : α) : BQueue α :=
  { q with items := q.items ++ [a] }

/-- A record placed on `text_queue`. -/
structure TextRecord where
  url : String
  text : String
  depth : Nat
deriving DecidableEq

/-- A record placed on `image_queue` (the image payload itself is opaque
to every claim, so only url and depth are kept). -/
structure ImageRecord where
  url : String
  depth : Nat
deriving DecidableEq

/-- Levels of the `logging` calls the crawler makes. -/
inductive LogLevel
  | info
  | warning
  | error
deriving DecidableEq

/-- One log line. -/
structure LogEntry where
  level : LogLevel
  msg : String
deriving DecidableEq

/-- The text-emission step shared by `crawl_url_dfs` (lines 216-220) and
`process_cached_content` (lines 412-416): if the text is truthy and
`len(text.split()) > 50`, and the queue is not full, put the record and
log at info level; otherwise do nothing (the message text is abbreviated,
the level is the source's). -/
def try_emit_text (q : BQueue TextRecord) (url text : String) (depth : Nat) :
    BQueue TextRecord × List LogEntry :=
  if text ≠ "" ∧ 50 < (pythonWords text).length then
    if q.full = false then
      (q.put ⟨url, text, depth⟩,
       [⟨LogLevel.info, "Added text from " ++ url ++ " to queue"⟩])
    else (q, [])
  else (q, [])

/-- The image-emission step of `process_images` (lines 251-257): when the
image was processed and the queue is not full, put the record and log at
info level; otherwise do nothing. -/
def try_emit_image (q : BQueue ImageRecord) (img_url : String) (depth : Nat)
    (processed : Bool) : BQueue ImageRecord × List LogEntry :=
  if processed = true ∧ q.full = false then
    (q.put ⟨img_url, depth⟩,
     [⟨LogLevel.info, "Added image from " ++ img_url ++ " to queue"⟩])
  else (q, [])

/-- `DFSWebCrawler.process_cached_content`: parse the cached content,
extract its text and run the text-emission step.  Nothing else happens:
no links are extracted, nothing is scheduled, no images are fetched. -/
def process_cached_content (q : BQueue TextRecord) (url : String)
    (content : HtmlDoc) (depth : Nat) : BQueue TextRecord × List LogEntry :=
  try_emit_text q url (extract_text content) depth

/-! ## Persistent cache (`pages` table) -/

/-- One row of the `pages` table: `(url PRIMARY KEY, content,
last_crawled)`. -/
structure PageRow where
  url : String
  content : HtmlDoc
  last_crawled : Int
deriving DecidableEq

/-- `SELECT content, last_crawled FROM pages WHERE url = ?` (primary key:
first match). -/
def lookupPage : List PageRow → String → Option (HtmlDoc × Int)
  | [], _ => none
  | r :: rs, url =>
    if r.url = url then some (r.content, r.last_crawled) else lookupPage rs url

/-- `DFSWebCrawler.get_cached_page`: return the stored content when a row
exists and `now - last_crawled < timedelta(hours 24)`, else `None`.  The
operation runs a single SELECT, so the table is returned unchanged (second
component); the `cached_hits` metric bump on a hit is applied by the
caller in the state machine below. -/
def get_cached_page (pages : List PageRow) (now : Int) (url : String) :
    Option HtmlDoc × List PageRow :=
  match lookupPage pages url with
  | some ct => if now - ct.2 < 86400 then (some ct.1, pages) else (none, pages)
  | none => (none, pages)

/-- `DFSWebCrawler.cache_page`: `INSERT OR REPLACE` keyed on url with
`last_crawled = now`. -/
def cache_page (pages : List PageRow) (now : Int) (url : String)
    (content : HtmlDoc) : List PageRow :=
  pages.filter (fun r => r.url ≠ url) ++ [⟨url, content, now⟩]

/-! ## Origin governor: domain stats and adaptive delay -/

/-- Per-domain counters (`self.domain_stats[domain]`). -/
structure DomainStats where
  errors : Nat
  success : Nat
deriving DecidableEq

/-- Association-list read of `self.domain_stats`. -/
def statsLookup : List (String × DomainStats) → String → Option DomainStats
  | [], _ => none
  | (d, s) :: rest, x => if d = x then some s else statsLookup rest x

/-- `self.domain_stats.get(domain, default zero counters)`. -/
def statsGetD (ds : List (String × DomainStats)) (d : String) : DomainStats :=
  (statsLookup ds d).getD ⟨0, 0⟩

/-- `DFSWebCrawler.update_domain_stats` on the stats table: insert zero
counters when absent, then increment success or errors. -/
def bumpStats (ds : List (String × DomainStats)) (domain : String)
    (success : Bool) : List (String × DomainStats) :=
  match ds with
  | [] => [(domain, if success then ⟨0, 1⟩ else ⟨1, 0⟩)]
  | (d, s) :: rest =>
    if d = domain then
      (d, if success then { s with success := s.success + 1 }
          else { s with errors := s.errors + 1 }) :: rest
    else (d, s) :: bumpStats rest domain success

/-- `DFSWebCrawler.get_adaptive_delay` in seconds, over exact rationals:
`base_delay * error_factor * success_factor` with `base_delay = 1.0`,
`error_factor = 1 + errors * 0.5` and
`success_factor = max 0.5 (1 - success * 0.1)`. -/
def get_adaptive_delay (stats : DomainStats) : ℚ :=
  let base_delay : ℚ := 1
  let error_factor : ℚ := 1 + (stats.errors : ℚ) * (1 / 2)
  let success_factor : ℚ := max (1 / 2) (1 - (stats.success : ℚ) * (1 / 10))
  base_delay * error_factor * success_factor

/-! ## The crawler state machine

`DFSWebCrawler`'s mutable object state, and the deterministic outside
world (HTTP responses and image fetches). -/

/-- The `self.metrics` dictionary. -/
structure Metrics where
  pages_crawled : Nat
  bytes_downloaded : Nat
  successful_requests : Nat
  failed_requests : Nat
  cached_hits : Nat
deriving DecidableEq

/-- What one `session.get(url)` in `crawl_url_dfs` yields:
either a transport error (`aiohttp.ClientError` / `asyncio.TimeoutError`),
or a status, content-type header, decoded body (already parsed, with its
decoded length in `byteCount`). -/
structure FetchResult where
  transportError : Bool
  status : Nat
  contentType : String
  body : HtmlDoc
  byteCount : Nat
deriving DecidableEq

/-- The deterministic outside world: page fetches and image fetches
(an image fetch succeeds when status 200 and PIL decodes the bytes). -/
structure Web where
  page : String → FetchResult
  imageOk : String → Bool

/-- The crawler's mutable state.  `visited` is the in-memory set mirrored
by the durable `visited_urls` table (the source writes both under
`data_lock`; one list models both).  `tasks` is the asyncio task set as a
FIFO list of pending `(url, depth)` pairs; the currently running task has
already been removed from it (its done-callback discards it on
completion).  `image_cache` holds the URLs whose digest-named blob file
exists.  `now` is the wall clock, constant across one run. -/
structure CrawlerState where
  max_depth : Nat
  max_concurrent : Nat
  is_running : Bool
  now : Int
  visited : List String
  pages : List PageRow
  image_cache : List String
  domain_stats : List (String × DomainStats)
  text_queue : BQueue TextRecord
  image_queue : BQueue ImageRecord
  tasks : List (String × Nat)
  metrics : Metrics
  log : List LogEntry
deriving DecidableEq

/-- `DFSWebCrawler.update_domain_stats`: bump the domain counters and the
`successful_requests` / `failed_requests` metrics. -/
def recordOutcome (st : CrawlerState) (domain : String) (success : Bool) :
    CrawlerState :=
  { st with
    domain_stats := bumpStats st.domain_stats domain success,
    metrics :=
      if success then
        { st.metrics with
          successful_requests := st.metrics.successful_requests + 1 }
      else
        { st.metrics with
          failed_requests := st.metrics.failed_requests + 1 } }

/-- `DFSWebCrawler.process_image`: the md5-digest blob key is modelled by
the image URL itself (the digest is a stable injective rename).  A cache
hit bumps `cached_hits` and succeeds; otherwise fetch, and on success
store the re-encoded blob; any error yields `None` (failure). -/
def process_image (web : Web) (cache : List String) (m : Metrics)
    (img_url : String) : Bool × List String × Metrics :=
  if img_url ∈ cache then
    (true, cache, { m with cached_hits := m.cached_hits + 1 })
  else if web.imageOk img_url then (true, cache ++ [img_url], m)
  else (false, cache, m)

/-- One iteration of the `process_images` loop body: a truthy `src`
passing `is_valid_image_url` is resolved against the base URL, processed,
and emitted to the image queue when processing succeeded and the queue is
not full.  The `is_running` early return is a no-op here because nothing
flips the flag inside a task. -/
def process_images_step (web : Web) (base_url : String) (depth : Nat)
    (st : CrawlerState) (img : Option String) : CrawlerState :=
  if st.is_running = false then st
  else
    match img with
    | none => st
    | some src =>
      if src ≠ "" ∧ is_valid_image_url src = true then
        let img_url := urljoin base_url src
        let r := process_image web st.image_cache st.metrics img_url
        let e := try_emit_image st.image_queue img_url depth r.1
        { st with image_cache := r.2.1, metrics := r.2.2,
                  image_queue := e.1, log := st.log ++ e.2 }
      else st

/-- `DFSWebCrawler.process_images`: fold the step over every image
element. -/
def process_images (web : Web) (st : CrawlerState) (doc : HtmlDoc)
    (base_url : String) (depth : Nat) : CrawlerState :=
  doc.imgs.foldl (process_images_step web base_url depth) st

/-- The text-emission site inside the task, applied to the crawler
state. -/
def emit_text_state (st : CrawlerState) (url text : String) (depth : Nat) :
    CrawlerState :=
  let e := try_emit_text st.text_queue url text depth
  { st with text_queue := e.1, log := st.log ++ e.2 }

/-- One iteration of the link-scheduling loop at the end of
`crawl_url_dfs`: `asyncio.create_task(crawl_url_dfs(link, depth+1))`
guarded by the task-set capacity and `is_running`. -/
def schedule_links_step (depth : Nat) (st : CrawlerState) (link : String) :
    CrawlerState :=
  if st.tasks.length < st.max_concurrent ∧ st.is_running = true then
    { st with tasks := st.tasks ++ [(link, depth + 1)] }
  else st

/-- The `extract_links` + scheduling block of `crawl_url_dfs`. -/
def schedule_links (st : CrawlerState) (doc : HtmlDoc) (url : String)
    (depth : Nat) : CrawlerState :=
  (extract_links doc url st.visited).foldl (schedule_links_step depth) st

/-- The response-handling block of `crawl_url_dfs` (lines 184-236), after
the adaptive-delay sleep (which does not change crawler state): a
transport error or a non-200 status records a failed outcome and returns;
a content-type without `text/html` returns with no effect at all;
otherwise bump byte/page metrics, record success, cache the page, emit
text, process images, and schedule extracted links when
`depth < max_depth`. -/
def handle_response (web : Web) (st : CrawlerState) (url : String)
    (depth : Nat) : CrawlerState :=
  let domain := urlDomain url
  let res := web.page url
  if res.transportError = true then recordOutcome st domain false
  else if res.status ≠ 200 then recordOutcome st domain false
  else if strContains (lowerStr res.contentType) "text/html" = false then st
  else
    let st := { st with
      metrics := { st.metrics with
        bytes_downloaded := st.metrics.bytes_downloaded + res.byteCount,
        pages_crawled := st.metrics.pages_crawled + 1 } }
    let st := recordOutcome st domain true
    let st := { st with pages := cache_page st.pages st.now url res.body }
    let st := emit_text_state st url (extract_text res.body) depth
    let st := process_images web st res.body url depth
    if depth < st.max_depth then schedule_links st res.body url depth else st

/-- `process_cached_content` applied to the crawler state. -/
def process_cached_content_state (st : CrawlerState) (url : String)
    (content : HtmlDoc) (depth : Nat) : CrawlerState :=
  let e := process_cached_content st.text_queue url content depth
  { st with text_queue := e.1, log := st.log ++ e.2 }

/-- `DFSWebCrawler.crawl_url_dfs`: the body of one task.  Guard on
`is_running`, depth and the visited set; re-check visited under
`data_lock` and claim the URL; then either serve the fresh cache hit
through `process_cached_content` (bumping `cached_hits`, the metric
`get_cached_page` increments) and return, or fetch and handle the
response.  The per-origin lock acquisition and the adaptive-delay sleep
suspend the task but change no modelled state. -/
def crawl_url_dfs (web : Web) (st : CrawlerState) (url : String)
    (depth : Nat) : CrawlerState :=
  if st.is_running = false ∨ st.max_depth < depth ∨ url ∈ st.visited then st
  else if url ∈ st.visited then st
  else
    let st := { st with visited := st.visited ++ [url] }
    match (get_cached_page st.pages st.now url).1 with
    | some content =>
      let st := { st with
        metrics := { st.metrics with cached_hits := st.metrics.cached_hits + 1 } }
      process_cached_content_state st url content depth
    | none => handle_response web st url depth

/-- The rescan inside `run_crawler`'s loop: for every visited URL whose
cached page is fresh, re-extract its links against the current visited
set (the `cached_hits` bumps these reads make are not tracked; no claim
concerns them). -/
def rescan_unvisited (st : CrawlerState) : List String :=
  st.visited.foldl
    (fun acc vu =>
      match (get_cached_page st.pages st.now vu).1 with
      | some content => acc ++ extract_links content vu st.visited
      | none => acc) []

/-- One iteration of the rescan scheduling loop in `run_crawler`:
`asyncio.create_task(self.crawl_url_dfs(url))` — the `depth` argument is
omitted in the source, so the task starts at the default depth 0.  Once
the capacity guard fires, every later iteration is a no-op, which models
the source's `break`. -/
def schedule_rescan_step (st : CrawlerState) (url : String) : CrawlerState :=
  if st.max_concurrent ≤ st.tasks.length then st
  else if url ∉ st.visited ∧ st.is_running = true then
    { st with tasks := st.tasks ++ [(url, 0)] }
  else st

/-- The rescan scheduling loop of `run_crawler`. -/
def schedule_rescan (st : CrawlerState) (urls : List String) : CrawlerState :=
  urls.foldl schedule_rescan_step st

/-- One turn of `run_crawler`'s `while self.tasks and self.is_running`
loop in the sequential model: run the next pending task to completion
(its done-callback has removed it from the task set), then — as the
source does after awaiting a completed task — rescan cached pages and
top the task set up when there is capacity. -/
def run_step (web : Web) (st : CrawlerState) : CrawlerState :=
  match st.tasks with
  | [] => st
  | (url, depth) :: rest =>
    let st := crawl_url_dfs web { st with tasks := rest } url depth
    if st.tasks.length < st.max_concurrent ∧ st.is_running = true then
      schedule_rescan st (rescan_unvisited st)
    else st

/-- `run_crawler`'s loop, driven by fuel (each turn completes at least
one task, so any fuel at least the number of tasks ever created reaches
the fixed point). -/
def run_loop (web : Web) : Nat → CrawlerState → CrawlerState
  | 0, st => st
  | fuel + 1, st =>
    if st.tasks = [] ∨ st.is_running = false then st
    else run_loop web fuel (run_step web st)

/-- `DFSWebCrawler.run_crawler`: schedule each seed at depth 0 (the
source calls `crawl_url_dfs(url)` with the default depth), bounded by
capacity, then run the loop. -/
def run_crawler (web : Web) (fuel : Nat) (seeds : List String)
    (st : CrawlerState) : CrawlerState :=
  let st := seeds.foldl
    (fun st url =>
      if st.tasks.length < st.max_concurrent then
        { st with tasks := st.tasks ++ [(url, 0)] }
      else st) st
  run_loop web fuel st

/-- A fresh crawler (`__init__` with an empty cache directory): empty
visited set, empty tables, zero metrics, queues sized from memory. -/
def init_state (max_depth max_concurrent text_cap image_cap : Nat)
    (now : Int) : CrawlerState :=
  { max_depth := max_depth, max_concurrent := max_concurrent,
    is_running := true, now := now, visited := [], pages := [],
    image_cache := [], domain_stats := [],
    text_queue := ⟨text_cap, []⟩, image_queue := ⟨image_cap, []⟩,
    tasks := [], metrics := ⟨0, 0, 0, 0, 0⟩, log := [] }

/-! ## Concrete scenario: one seed, one anchor, one image, `max_depth = 0`

The single-seed scenario of the spec (section 8, scenario 1), run on the
machine above. -/

/-- The seed URL. -/
def seedUrl : String := "http://site.com/"

/-- The URL the seed page's one anchor resolves to. -/
def linkUrl : String := "http://site.com/page2"

/-- The URL the seed page's one image resolves to. -/
def imgUrl : String := "http://site.com/img.jpg"

/-- A 51-word paragraph body: eligible for text emission. -/
def para51 : String := joinWith " " (List.replicate 51 "w")

/-- The seed page: one anchor, one image, one 51-word paragraph. -/
def seedDoc : HtmlDoc := ⟨[some "page2"], [some "img.jpg"], [para51]⟩

/-- The page behind the anchor: a 51-word paragraph, nothing else. -/
def linkDoc : HtmlDoc := ⟨[], [], [para51]⟩

/-- A document with no content at all. -/
def emptyDoc : HtmlDoc := ⟨[], [], []⟩

/-- The deterministic web serving the scenario: both pages answer 200
`text/html`, the image fetch succeeds, anything else fails at
transport. -/
def webS : Web :=
  ⟨fun u =>
    if u = seedUrl then ⟨false, 200, "text/html; charset=utf-8", seedDoc, 120⟩
    else if u = linkUrl then ⟨false, 200, "text/html", linkDoc, 80⟩
    else ⟨true, 0, "", emptyDoc, 0⟩,
   fun u => u = imgUrl⟩

/-- Fresh crawler for the scenario: `max_depth = 0`, capacity 50, small
queues, empty cache. -/
def stS : CrawlerState := init_state 0 50 10 10 0

/-- The finished scenario run. -/
def runS : CrawlerState := run_crawler webS 10 [seedUrl] stS

/-- A web whose every page fetch fails at transport, for states whose
interesting content is already in the cache. -/
def webDead : Web := ⟨fun _ => ⟨true, 0, "", emptyDoc, 0⟩, fun _ => false⟩

/-- A crawler state whose cache holds a fresh copy of the seed page (with
its one anchor) and nothing else: the cache-hit path of `crawl_url_dfs`
will serve it. -/
def stHit : CrawlerState :=
  { init_state 10 50 10 10 0 with pages := [⟨seedUrl, seedDoc, 0⟩] }

/-- The spec's `normalize(raw, base)` as the source realizes it in
`extract_links`: resolve with `urljoin(base, raw)` and keep the result
exactly when `is_valid_url` accepts it. -/
def normalizeUrl (raw base : String) : Option String :=
  let full_url := urljoin base raw
  if is_valid_url full_url = true then some full_url else none

/-- Invariant: every record on the text queue clears the 50-word floor. -/
def textFloorInv (st : CrawlerState) : Prop :=
  ∀ r ∈ st.text_queue.items, 50 < (pythonWords r.text).length

/-- The recorded error count of a domain (zero when the domain has no
stats entry, as `dict.get` with a zero default reads it). -/
def errorsOf (st : CrawlerState) (d : String) : Nat :=
  (statsGetD st.domain_stats d).errors

/-- A page whose single anchor points at an image URL. -/
def docPic : HtmlDoc := ⟨[some "pic.jpg"], [], []⟩

/-- A text queue of capacity 1 already holding one record: full. -/
def fullTextQ : BQueue TextRecord := ⟨1, [⟨seedUrl, para51, 0⟩]⟩

/-- An image queue of capacity 1 already holding one record: full. -/
def fullImageQ : BQueue ImageRecord := ⟨1, [⟨imgUrl, 0⟩]⟩

/-- A web answering every page fetch with 200 and a non-HTML
content-type. -/
def webNotHtml : Web :=
  ⟨fun _ => ⟨false, 200, "application/pdf", emptyDoc, 5⟩, fun _ => false⟩

/-- A fresh crawler state for witnesses. -/
def stW : CrawlerState := init_state 10 50 10 10 0

/-! ## Helper lemmas -/

/-- A projection fixed by every fold step is fixed by the fold. -/
theorem foldl_fix {σ α γ : Type} (p : σ → γ) (f : σ → α → σ)
    (hf : ∀ s a, p (f s a) = p s) (l : List α) (s : σ) :
    p (List.foldl f s l) = p s := by
  induction l generalizing s with
  | nil => rfl
  | cons a t ih => rw [List.foldl_cons, ih, hf]

/-- A predicate preserved by every fold step is preserved by the fold. -/
theorem foldl_inv {σ α : Type} (P : σ → Prop) (f : σ → α → σ)
    (hf : ∀ s a, P s → P (f s a)) (l : List α) (s : σ) (h : P s) :
    P (List.foldl f s l) := by
  induction l generalizing s with
  | nil => exact h
  | cons a t ih => exact ih _ (hf _ _ h)

/-- Anything on the queue after the text-emission step was already there
or clears the 50-word floor. -/
theorem mem_try_emit_text {q : BQueue TextRecord} {url text : String}
    {depth : Nat} {r : TextRecord}
    (h : r ∈ (try_emit_text q url text depth).1.items) :
    r ∈ q.items ∨ 50 < (pythonWords r.text).length := by
  unfold try_emit_text at h
  split_ifs at h with h1 h2
  · simp only [BQueue.put, List.mem_append, List.mem_singleton] at h
    rcases h with h | h
    · exact Or.inl h
    · subst h; exact Or.inr h1.2
  · exact Or.inl h
  · exact Or.inl h

/-- The invariant transfers along equal text queues. -/
theorem textFloorInv_congr {st st2 : CrawlerState}
    (h : st2.text_queue = st.text_queue) (hi : textFloorInv st) :
    textFloorInv st2 := by
  intro r hr
  exact hi r (by rw [← h]; exact hr)

/-- The text-emission site preserves the floor invariant. -/
theorem textFloorInv_emit {st : CrawlerState} {url text : String}
    {depth : Nat} (h : textFloorInv st) :
    textFloorInv (emit_text_state st url text depth) := by
  intro r hr
  rcases @mem_try_emit_text st.text_queue url text depth r hr with h2 | h2
  · exact h r h2
  · exact h2

/-- `process_cached_content_state` preserves the floor invariant. -/
theorem textFloorInv_cached {st : CrawlerState} {url : String}
    {content : HtmlDoc} {depth : Nat} (h : textFloorInv st) :
    textFloorInv (process_cached_content_state st url content depth) := by
  intro r hr
  rcases @mem_try_emit_text st.text_queue url (extract_text content) depth r hr
    with h2 | h2
  · exact h r h2
  · exact h2

/-- One image step never touches the text queue. -/
theorem process_images_step_text_queue (web : Web) (base_url : String)
    (depth : Nat) (st : CrawlerState) (img : Option String) :
    (process_images_step web base_url depth st img).text_queue
      = st.text_queue := by
  unfold process_images_step
  split_ifs with h1
  · rfl
  · cases img with
    | none => rfl
    | some src =>
      dsimp only
      split_ifs with h2 <;> rfl

/-- `process_images` never touches the text queue. -/
theorem process_images_text_queue (web : Web) (st : CrawlerState)
    (doc : HtmlDoc) (base_url : String) (depth : Nat) :
    (process_images web st doc base_url depth).text_queue = st.text_queue :=
  foldl_fix (fun s => s.text_queue) _
    (fun s a => process_images_step_text_queue web base_url depth s a)
    doc.imgs st

/-- One link-scheduling step never touches the text queue. -/
theorem schedule_links_step_text_queue (depth : Nat) (st : CrawlerState)
    (link : String) :
    (schedule_links_step depth st link).text_queue = st.text_queue := by
  unfold schedule_links_step
  split_ifs <;> rfl

/-- `schedule_links` never touches the text queue. -/
theorem schedule_links_text_queue (st : CrawlerState) (doc : HtmlDoc)
    (url : String) (depth : Nat) :
    (schedule_links st doc url depth).text_queue = st.text_queue :=
  foldl_fix (fun s => s.text_queue) _
    (fun s a => schedule_links_step_text_queue depth s a)
    (extract_links doc url st.visited) st

/-- One rescan-scheduling step never touches the text queue. -/
theorem schedule_rescan_step_text_queue (st : CrawlerState) (url : String) :
    (schedule_rescan_step st url).text_queue = st.text_queue := by
  unfold schedule_rescan_step
  split_ifs <;> rfl

/-- `schedule_rescan` never touches the text queue. -/
theorem schedule_rescan_text_queue (st : CrawlerState) (urls : List String) :
    (schedule_rescan st urls).text_queue = st.text_queue :=
  foldl_fix (fun s => s.text_queue) _
    (fun s a => schedule_rescan_step_text_queue s a) urls st

/-- The response handler preserves the floor invariant. -/
theorem textFloorInv_handle_response (web : Web) (st : CrawlerState)
    (url : String) (depth : Nat) (h : textFloorInv st) :
    textFloorInv (handle_response web st url depth) := by
  unfold handle_response
  dsimp only
  split_ifs with h1 h2 h3 h4
  · exact textFloorInv_congr rfl h
  · exact textFloorInv_congr rfl h
  · exact h
  · refine textFloorInv_congr (schedule_links_text_queue _ _ _ _) ?_
    refine textFloorInv_congr (process_images_text_queue _ _ _ _ _) ?_
    exact textFloorInv_emit (textFloorInv_congr rfl h)
  · refine textFloorInv_congr (process_images_text_queue _ _ _ _ _) ?_
    exact textFloorInv_emit (textFloorInv_congr rfl h)

/-- One task preserves the floor invariant. -/
theorem textFloorInv_crawl (web : Web) (st : CrawlerState) (url : String)
    (depth : Nat) (h : textFloorInv st) :
    textFloorInv (crawl_url_dfs web st url depth) := by
  unfold crawl_url_dfs
  split_ifs with h1 h2
  · exact h
  · exact h
  · have hbase : textFloorInv { st with visited := st.visited ++ [url] } :=
      textFloorInv_congr rfl h
    cases hc : (get_cached_page st.pages st.now url).1 with
    | some content =>
      simp only [hc]
      exact textFloorInv_cached (textFloorInv_congr rfl hbase)
    | none =>
      simp only [hc]
      exact textFloorInv_handle_response _ _ _ _ hbase

/-- One scheduler turn preserves the floor invariant. -/
theorem textFloorInv_run_step (web : Web) (st : CrawlerState)
    (h : textFloorInv st) : textFloorInv (run_step web st) := by
  unfold run_step
  cases htasks : st.tasks with
  | nil => exact h
  | cons td rest =>
    cases td with
    | mk url depth =>
      have h1 : textFloorInv (crawl_url_dfs web { st with tasks := rest } url depth) :=
        textFloorInv_crawl _ _ _ _ (textFloorInv_congr rfl h)
      dsimp only
      split_ifs with h2
      · exact textFloorInv_congr (schedule_rescan_text_queue _ _) h1
      · exact h1

/-- The scheduler loop preserves the floor invariant. -/
theorem textFloorInv_run_loop (web : Web) (fuel : Nat) (st : CrawlerState)
    (h : textFloorInv st) : textFloorInv (run_loop web fuel st) := by
  induction fuel generalizing st with
  | zero => exact h
  | succ n ih =>
    unfold run_loop
    split_ifs with h1
    · exact h
    · exact ih _ (textFloorInv_run_step _ _ h)

/-- The whole run preserves the floor invariant. -/
theorem textFloorInv_run_crawler (web : Web) (fuel : Nat)
    (seeds : List String) (st : CrawlerState) (h : textFloorInv st) :
    textFloorInv (run_crawler web fuel seeds st) := by
  unfold run_crawler
  refine textFloorInv_run_loop _ _ _ ?_
  refine foldl_inv textFloorInv _ (fun s a hs => ?_) seeds st h
  dsimp only
  split_ifs with h1
  · exact textFloorInv_congr rfl hs
  · exact hs

/-- Recording a success never changes any domain's stored error count. -/
theorem bumpStats_true_errors (ds : List (String × DomainStats))
    (domain d : String) :
    (statsGetD (bumpStats ds domain true) d).errors
      = (statsGetD ds d).errors := by
  induction ds with
  | nil =>
    by_cases h : domain = d <;>
      simp [bumpStats, statsGetD, statsLookup, h]
  | cons p rest ih =>
    cases p with
    | mk d0 s0 =>
      by_cases h1 : d0 = domain
      · subst h1
        by_cases h2 : d0 = d <;>
          simp [bumpStats, statsGetD, statsLookup, h2]
      · by_cases h2 : d0 = d
        · simp only [bumpStats, if_neg h1]
          unfold statsGetD statsLookup
          rw [if_pos h2, if_pos h2]
        · simp only [bumpStats, if_neg h1]
          unfold statsGetD statsLookup
          rw [if_neg h2, if_neg h2]
          exact ih

/-- `errorsOf` transfers along equal stats tables. -/
theorem errorsOf_congr {st st2 : CrawlerState} {d : String}
    (h : st2.domain_stats = st.domain_stats) :
    errorsOf st2 d = errorsOf st d := by
  unfold errorsOf
  rw [h]

/-- Recording a success leaves every error count unchanged. -/
theorem errorsOf_recordOutcome_true (st : CrawlerState) (domain d : String) :
    errorsOf (recordOutcome st domain true) d = errorsOf st d :=
  bumpStats_true_errors st.domain_stats domain d

/-- One image step never touches the stats table. -/
theorem process_images_step_domain_stats (web : Web) (base_url : String)
    (depth : Nat) (st : CrawlerState) (img : Option String) :
    (process_images_step web base_url depth st img).domain_stats
      = st.domain_stats := by
  unfold process_images_step
  split_ifs with h1
  · rfl
  · cases img with
    | none => rfl
    | some src =>
      dsimp only
      split_ifs with h2 <;> rfl

/-- `process_images` never touches the stats table. -/
theorem process_images_domain_stats (web : Web) (st : CrawlerState)
    (doc : HtmlDoc) (base_url : String) (depth : Nat) :
    (process_images web st doc base_url depth).domain_stats
      = st.domain_stats :=
  foldl_fix (fun s => s.domain_stats) _
    (fun s a => process_images_step_domain_stats web base_url depth s a)
    doc.imgs st

/-- One link-scheduling step never touches the stats table. -/
theorem schedule_links_step_domain_stats (depth : Nat) (st : CrawlerState)
    (link : String) :
    (schedule_links_step depth st link).domain_stats = st.domain_stats := by
  unfold schedule_links_step
  split_ifs <;> rfl

/-- `schedule_links` never touches the stats table. -/
theorem schedule_links_domain_stats (st : CrawlerState) (doc : HtmlDoc)
    (url : String) (depth : Nat) :
    (schedule_links st doc url depth).domain_stats = st.domain_stats :=
  foldl_fix (fun s => s.domain_stats) _
    (fun s a => schedule_links_step_domain_stats depth s a)
    (extract_links doc url st.visited) st

/-- A successful or non-HTML response leaves every error count
unchanged. -/
theorem errorsOf_handle_response (web : Web) (st : CrawlerState)
    (url : String) (depth : Nat) (d : String)
    (h1 : (web.page url).transportError = false)
    (h2 : (web.page url).status = 200) :
    errorsOf (handle_response web st url depth) d = errorsOf st d := by
  have hc1 : ¬ ((web.page url).transportError = true) := by simp [h1]
  have hc2 : ¬ ((web.page url).status ≠ 200) := by simp [h2]
  unfold handle_response
  dsimp only
  rw [if_neg hc1, if_neg hc2]
  split_ifs with h3 h4
  · rfl
  · rw [errorsOf_congr (schedule_links_domain_stats _ _ _ _),
      errorsOf_congr (process_images_domain_stats _ _ _ _ _)]
    exact errorsOf_recordOutcome_true _ _ _
  · rw [errorsOf_congr (process_images_domain_stats _ _ _ _ _)]
    exact errorsOf_recordOutcome_true _ _ _

/-- Characterization of one anchor's contribution to `extract_links`. -/
theorem keepLink_eq_some {base : String} {visited : List String}
    {href : Option String} {link : String} :
    keepLink base visited href = some link ↔
      ∃ h, href = some h ∧ h ≠ "" ∧ link = urljoin base h
        ∧ is_valid_url link = true ∧ should_crawl_url link = true
        ∧ link ∉ visited := by
  cases href with
  | none => simp [keepLink]
  | some h =>
    unfold keepLink
    dsimp only
    split_ifs with h1 h2
    · constructor
      · intro he; cases he
      · rintro ⟨h3, he, hne, _⟩
        injection he with he
        subst he
        exact absurd h1 hne
    · constructor
      · intro he
        injection he with he
        subst he
        exact ⟨h, rfl, h1, rfl, h2.1, h2.2.1, h2.2.2⟩
      · rintro ⟨h3, he, hne, hlink, _⟩
        injection he with he
        subst he
        rw [hlink]
    · constructor
      · intro he; cases he
      · rintro ⟨h3, he, hne, hlink, hv, hc, hnv⟩
        injection he with he
        subst he
        subst hlink
        exact absurd ⟨hv, hc, hnv⟩ h2

/-! ## Claim theorems -/

/-- C2: every text record ever placed on the text queue — after a fresh
fetch or from a cache hit, both of which enqueue through the shared
`try_emit_text` guard — has strictly more than 50 words, and the floor is
an invariant of whole crawler runs. -/
theorem C2_text_floor (web : Web) (fuel : Nat) (seeds : List String)
    (st : CrawlerState) (h : textFloorInv st) :
    (∀ (q : BQueue TextRecord) (url text : String) (depth : Nat)
        (r : TextRecord), r ∈ (try_emit_text q url text depth).1.items →
        r ∈ q.items ∨ 50 < (pythonWords r.text).length)
    ∧ textFloorInv (run_crawler web fuel seeds st) :=
  ⟨fun _ _ _ _ _ hr => mem_try_emit_text hr,
   textFloorInv_run_crawler web fuel seeds st h⟩

/-- C2 witness: the scenario run from an empty queue keeps the floor. -/
theorem C2_text_floor_witness : textFloorInv (run_crawler webS 10 [seedUrl] stS) :=
  (C2_text_floor webS 10 [seedUrl] stS (fun _ hr => nomatch hr)).2

/-- C3 (amended): a link is produced by `extract_links` exactly when it is
the `urljoin`-resolution of a truthy anchor href that `is_valid_url`
accepts (nonempty scheme and host — not restricted to http/https),
`should_crawl_url` accepts (no skip-domain substring in the host), and
that is not yet visited; no image or video filter is applied. -/
theorem C3_extract_links_spec (doc : HtmlDoc) (base : String)
    (visited : List String) (link : String) :
    link ∈ extract_links doc base visited ↔
      ∃ href, some href ∈ doc.anchors ∧ href ≠ ""
        ∧ link = urljoin base href ∧ is_valid_url link = true
        ∧ should_crawl_url link = true ∧ link ∉ visited := by
  unfold extract_links
  rw [List.mem_filterMap]
  constructor
  · rintro ⟨href, hmem, hk⟩
    rcases keepLink_eq_some.mp hk with ⟨h, rfl, hprops⟩
    exact ⟨h, hmem, hprops⟩
  · rintro ⟨h, hmem, hprops⟩
    exact ⟨some h, hmem, keepLink_eq_some.mpr ⟨h, rfl, hprops⟩⟩

/-- C3 counterexample: an anchor href resolving to an image-classified URL
(`.jpg` path) is returned for scheduling, refuting the claim that image
URLs are never returned. -/
theorem C3_counterexample :
    is_valid_image_url "http://example.com/pic.jpg" = true
    ∧ extract_links docPic "http://example.com/" []
        = ["http://example.com/pic.jpg"] :=
  ⟨rfl, rfl⟩

/-- C4 (amended): when a record is produced while its bounded queue is
full, the try-enqueue drops it silently — the queue is unchanged and
nothing at all is logged (in particular no warning) — and the blocking
put is never reached, so the producing task never blocks. -/
theorem C4_full_queue_drop (qt : BQueue TextRecord)
    (qi : BQueue ImageRecord) (url text img_url : String) (depth : Nat)
    (processed : Bool) (ht : qt.full = true) (hi : qi.full = true) :
    try_emit_text qt url text depth = (qt, [])
    ∧ try_emit_image qi img_url depth processed = (qi, []) := by
  constructor
  · unfold try_emit_text
    split_ifs with h1 h2
    · rw [ht] at h2; cases h2
    · rfl
    · rfl
  · unfold try_emit_image
    split_ifs with h1
    · simp [hi] at h1
    · rfl

/-- C4 witness: a concrete full queue with an eligible record. -/
theorem C4_full_queue_drop_witness :
    try_emit_text fullTextQ seedUrl para51 0 = (fullTextQ, [])
    ∧ try_emit_image fullImageQ imgUrl 0 true = (fullImageQ, []) :=
  C4_full_queue_drop fullTextQ fullImageQ seedUrl para51 imgUrl 0 true rfl rfl

/-- C4 counterexample: a full queue and an eligible 51-word record — the
record is dropped and the log output is empty, so no warning is logged,
refuting the claim that a warning accompanies the drop. -/
theorem C4_counterexample :
    fullTextQ.full = true
    ∧ 50 < (pythonWords para51).length
    ∧ try_emit_text fullTextQ seedUrl para51 0 = (fullTextQ, [])
    ∧ try_emit_image fullImageQ imgUrl 0 true = (fullImageQ, []) :=
  ⟨rfl, by decide, rfl, rfl⟩

/-- C5: the adaptive delay is exactly
`1.0 × (1 + 0.5·errors) × max 0.5 (1 − 0.1·successes)` seconds; an origin
with zero errors waits at least 0.5 s and exactly 0.5 s once it has 5 or
more successes, and the delay exceeds any bound for large error counts. -/
theorem C5_adaptive_delay (e s : Nat) :
    get_adaptive_delay ⟨e, s⟩
      = 1 * (1 + (e : ℚ) * (1 / 2)) * max (1 / 2) (1 - (s : ℚ) * (1 / 10))
    ∧ (1 / 2 : ℚ) ≤ get_adaptive_delay ⟨0, s⟩
    ∧ (5 ≤ s → get_adaptive_delay ⟨0, s⟩ = 1 / 2)
    ∧ (∀ B : ℚ, ∃ e2 : Nat, ∀ s2 : Nat, B < get_adaptive_delay ⟨e2, s2⟩) := by
  refine ⟨rfl, ?_, ?_, ?_⟩
  · show (1 / 2 : ℚ) ≤ 1 * (1 + (0 : ℚ) * (1 / 2)) * max (1 / 2) (1 - (s : ℚ) * (1 / 10))
    have : (1 : ℚ) * (1 + (0 : ℚ) * (1 / 2)) = 1 := by norm_num
    rw [this, one_mul]
    exact le_max_left _ _
  · intro hs
    show (1 : ℚ) * (1 + (0 : ℚ) * (1 / 2)) * max (1 / 2) (1 - (s : ℚ) * (1 / 10)) = 1 / 2
    have hcast : (5 : ℚ) ≤ (s : ℚ) := by exact_mod_cast hs
    have hle : (1 - (s : ℚ) * (1 / 10)) ≤ 1 / 2 := by linarith
    rw [max_eq_left hle]
    norm_num
  · intro B
    refine ⟨(⌈4 * B⌉).toNat + 1, fun s2 => ?_⟩
    have h1 : (4 * B : ℚ) ≤ ((⌈4 * B⌉).toNat : ℚ) := by
      calc (4 * B : ℚ) ≤ ((⌈4 * B⌉ : ℤ) : ℚ) := Int.le_ceil _
        _ ≤ (((⌈4 * B⌉).toNat : ℤ) : ℚ) := by
            exact_mod_cast Int.self_le_toNat _
        _ = ((⌈4 * B⌉).toNat : ℚ) := by push_cast; ring
    set e2 : Nat := (⌈4 * B⌉).toNat + 1 with he2
    have h2 : (4 * B : ℚ) + 1 ≤ (e2 : ℚ) := by
      rw [he2]; push_cast; linarith
    show B < 1 * (1 + (e2 : ℚ) * (1 / 2)) * max (1 / 2) (1 - (s2 : ℚ) * (1 / 10))
    have hm : (1 / 2 : ℚ) ≤ max (1 / 2) (1 - (s2 : ℚ) * (1 / 10)) :=
      le_max_left _ _
    have hpos : (0 : ℚ) ≤ 1 + (e2 : ℚ) * (1 / 2) := by positivity
    have h3 : (1 + (e2 : ℚ) * (1 / 2)) * (1 / 2)
        ≤ (1 + (e2 : ℚ) * (1 / 2)) * max (1 / 2) (1 - (s2 : ℚ) * (1 / 10)) :=
      mul_le_mul_of_nonneg_left hm hpos
    nlinarith

/-- C5 witness: with zero errors and exactly five successes the delay is
exactly half a second. -/
theorem C5_adaptive_delay_witness : get_adaptive_delay ⟨0, 5⟩ = 1 / 2 :=
  (C5_adaptive_delay 0 5).2.2.1 (by norm_num)

/-- C6: `get_cached_page` returns the stored HTML exactly when a row for
the url exists and `now - last_crawled` is strictly below 24 hours;
otherwise it misses, and the lookup leaves the table unchanged — a stale
row is neither returned nor deleted. -/
theorem C6_get_cached_page_iff (pages : List PageRow) (now : Int)
    (url : String) :
    (∀ content, (get_cached_page pages now url).1 = some content ↔
        ∃ t, lookupPage pages url = some (content, t) ∧ now - t < 86400)
    ∧ (get_cached_page pages now url).2 = pages := by
  constructor
  · intro content
    unfold get_cached_page
    cases hlk : lookupPage pages url with
    | none => simp
    | some ct =>
      cases ct with
      | mk c t =>
        by_cases hf : now - t < 86400
        · simp only [if_pos hf]
          constructor
          · rintro h
            injection h with h
            subst h
            exact ⟨t, rfl, hf⟩
          · rintro ⟨t2, ht2, _⟩
            injection ht2 with ht2
            rw [Prod.mk.injEq] at ht2
            rw [ht2.1]
        · simp only [if_neg hf]
          constructor
          · rintro h; cases h
          · rintro ⟨t2, ht2, hf2⟩
            injection ht2 with ht2
            rw [Prod.mk.injEq] at ht2
            exact absurd (ht2.2 ▸ hf2) hf
  · unfold get_cached_page
    cases hlk : lookupPage pages url with
    | none => rfl
    | some ct => by_cases hf : now - ct.2 < 86400 <;> simp [hf]

/-- C7: a fetch answering 200 with a non-HTML content-type makes the
handler return with the state exactly unchanged — in particular no origin
error count is incremented — and an origin error count can change only on
a transport error or a non-200 status. -/
theorem C7_content_type_clean (web : Web) (st : CrawlerState)
    (url : String) (depth : Nat) :
    ((web.page url).transportError = false → (web.page url).status = 200 →
      strContains (lowerStr (web.page url).contentType) "text/html" = false →
      handle_response web st url depth = st)
    ∧ (∀ d, errorsOf (handle_response web st url depth) d ≠ errorsOf st d →
        (web.page url).transportError = true ∨ (web.page url).status ≠ 200) := by
  constructor
  · intro h1 h2 h3
    have hc1 : ¬ ((web.page url).transportError = true) := by simp [h1]
    have hc2 : ¬ ((web.page url).status ≠ 200) := by simp [h2]
    unfold handle_response
    dsimp only
    rw [if_neg hc1, if_neg hc2, if_pos h3]
  · intro d hne
    by_cases h1 : (web.page url).transportError = true
    · exact Or.inl h1
    · by_cases h2 : (web.page url).status = 200
      · exact absurd (errorsOf_handle_response web st url depth d
          (by simpa using h1) h2) hne
      · exact Or.inr h2

/-- C7 witness: a concrete 200 response with content-type
`application/pdf` leaves the fresh state untouched. -/
theorem C7_content_type_clean_witness :
    handle_response webNotHtml stW "http://a.com/x" 0 = stW :=
  (C7_content_type_clean webNotHtml stW "http://a.com/x" 0).1 rfl rfl rfl

/-- C8 (amended): the link gate resolves raw against base with `urljoin`
and accepts exactly the results whose parse has a nonempty scheme and a
nonempty host — in particular any scheme with a host is accepted, not only
http(s) — and it rejects exactly the results lacking a scheme or a host;
it does not lowercase the host and does not strip fragments. -/
theorem C8_normalize_spec (raw base : String) :
    (∀ u, normalizeUrl raw base = some u ↔
      u = urljoin base raw ∧ (urlsplit u "").scheme ≠ ""
        ∧ (urlsplit u "").netloc ≠ "")
    ∧ ((urlsplit (urljoin base raw) "").scheme = ""
        ∨ (urlsplit (urljoin base raw) "").netloc = "" →
        normalizeUrl raw base = none) := by
  have hiff : ∀ v : String, is_valid_url v = true ↔
      ((urlsplit v "").scheme ≠ "" ∧ (urlsplit v "").netloc ≠ "") := by
    intro v
    unfold is_valid_url
    rw [Bool.and_eq_true, bne_iff_ne, bne_iff_ne]
  constructor
  · intro u
    constructor
    · intro hu
      unfold normalizeUrl at hu
      dsimp only at hu
      split_ifs at hu with h
      injection hu with hu
      subst hu
      exact ⟨rfl, ((hiff _).mp h).1, ((hiff _).mp h).2⟩
    · rintro ⟨rfl, hs, hn⟩
      unfold normalizeUrl
      dsimp only
      rw [if_pos ((hiff _).mpr ⟨hs, hn⟩)]
  · intro h
    have hnv : ¬ is_valid_url (urljoin base raw) = true := by
      intro hv
      rcases h with h | h
      · exact ((hiff _).mp hv).1 h
      · exact ((hiff _).mp hv).2 h
    unfold normalizeUrl
    dsimp only
    rw [if_neg hnv]

/-- C8 witness: a raw URL resolving to a host-less parse is rejected, and
a non-http scheme with a host is accepted through the iff's acceptance
direction. -/
theorem C8_normalize_spec_witness :
    normalizeUrl "nohost" "" = none
    ∧ normalizeUrl "ftp://host/x" "http://example.com/"
        = some "ftp://host/x" :=
  ⟨(C8_normalize_spec "nohost" "").2 (Or.inr rfl),
   ((C8_normalize_spec "ftp://host/x" "http://example.com/").1
       "ftp://host/x").mpr ⟨rfl, by decide, by decide⟩⟩

/-- C8 counterexample: the gate accepts an `ftp` URL (the claim says
non-http(s) schemes are rejected) and returns a URL with an uppercase
host and its fragment intact (the claim says hosts are lowercased and
fragments stripped). -/
theorem C8_counterexample :
    normalizeUrl "ftp://host/x" "http://example.com/" = some "ftp://host/x"
    ∧ normalizeUrl "http://UPPER.com/p#frag" "http://example.com/"
        = some "http://UPPER.com/p#frag" :=
  ⟨rfl, rfl⟩

/-- C1 (amended): when the task finds fresh cached HTML it claims the URL,
parses the cached document, emits a text record if eligible, and returns:
the task set, image queue, image blob cache and page table are untouched —
no links are extracted or scheduled and no images are re-fetched on such a
hit. -/
theorem C1_cache_hit (web : Web) (st : CrawlerState) (url : String)
    (depth : Nat) (content : HtmlDoc)
    (hrun : st.is_running = true) (hd : depth ≤ st.max_depth)
    (hv : url ∉ st.visited)
    (hc : (get_cached_page st.pages st.now url).1 = some content) :
    (crawl_url_dfs web st url depth).tasks = st.tasks
    ∧ (crawl_url_dfs web st url depth).image_queue = st.image_queue
    ∧ (crawl_url_dfs web st url depth).image_cache = st.image_cache
    ∧ (crawl_url_dfs web st url depth).pages = st.pages
    ∧ (crawl_url_dfs web st url depth).visited = st.visited ++ [url]
    ∧ (crawl_url_dfs web st url depth).text_queue
        = (try_emit_text st.text_queue url (extract_text content) depth).1 := by
  have hcond : ¬ (st.is_running = false ∨ st.max_depth < depth
      ∨ url ∈ st.visited) := by
    rintro (h | h | h)
    · rw [hrun] at h; cases h
    · exact absurd hd (Nat.not_le.mpr h)
    · exact hv h
  unfold crawl_url_dfs
  rw [if_neg hcond, if_neg hv]
  dsimp only
  rw [hc]
  exact ⟨rfl, rfl, rfl, rfl, rfl, rfl⟩

/-- C1 witness: the cache-hit behaviour at the concrete cached-seed
state. -/
theorem C1_cache_hit_witness :
    (crawl_url_dfs webDead stHit seedUrl 0).tasks = stHit.tasks
    ∧ (crawl_url_dfs webDead stHit seedUrl 0).visited
        = stHit.visited ++ [seedUrl] :=
  ⟨(C1_cache_hit webDead stHit seedUrl 0 seedDoc rfl (by decide) (by decide)
      rfl).1,
   (C1_cache_hit webDead stHit seedUrl 0 seedDoc rfl (by decide) (by decide)
      rfl).2.2.2.2.1⟩

/-- C1 counterexample: on a fresh cache hit whose cached document carries
one schedulable anchor, the claim says the link is scheduled at depth+1
before returning, but the task schedules nothing: the extracted link list
of the cached page is nonempty while the task set stays empty. -/
theorem C1_counterexample :
    (get_cached_page stHit.pages stHit.now seedUrl).1 = some seedDoc
    ∧ (crawl_url_dfs webDead stHit seedUrl 0).visited = [seedUrl]
    ∧ extract_links seedDoc seedUrl
        (crawl_url_dfs webDead stHit seedUrl 0).visited = [linkUrl]
    ∧ (crawl_url_dfs webDead stHit seedUrl 0).tasks = []
    ∧ (linkUrl, 1) ∉ (crawl_url_dfs webDead stHit seedUrl 0).tasks :=
  ⟨rfl, rfl, rfl, rfl, by decide⟩

/-- C9 counterexample: in the single-seed scenario with `max_depth = 0`,
an empty cache, and a seed page holding one anchor and one image, the
finished run has visited the seed AND its link: the scheduler's rescan
crawls the depth-0 link, refuting `visited = {seed}` alone. -/
theorem C9_counterexample :
    stS.max_depth = 0 ∧ stS.pages = []
    ∧ seedDoc.anchors = [some "page2"] ∧ seedDoc.imgs = [some "img.jpg"]
    ∧ linkUrl ∈ runS.visited ∧ linkUrl ≠ seedUrl :=
  ⟨rfl, rfl, rfl, rfl, by decide, by decide⟩

/-- C9 (amended): the run ends with `visited = [seed, link]`: the task
body itself never expands depth-0 links when `max_depth = 0` (the seed
task leaves the task set empty), but the scheduler loop's rescan
schedules the cached seed page's link at depth 0 and it is crawled. -/
theorem C9_amended_run :
    runS.visited = [seedUrl, linkUrl]
    ∧ (crawl_url_dfs webS { stS with tasks := [] } seedUrl 0).tasks = [] :=
  ⟨rfl, rfl⟩

/-- C10: every task the scheduler loop's rescan creates starts at depth 0
(the source calls `crawl_url_dfs(url)` without a depth argument), so in
the scenario run every emitted text record carries depth 0 and the
rescanned URL is crawled although its hop distance 1 from the seed
exceeds `max_depth = 0`. -/
theorem C10_rescan_depth_zero :
    (∀ (st : CrawlerState) (urls : List String) (t : String × Nat),
        t ∈ (schedule_rescan st urls).tasks → t ∈ st.tasks ∨ t.2 = 0)
    ∧ runS.text_queue.items.map TextRecord.depth = [0, 0]
    ∧ stS.max_depth = 0 ∧ linkUrl ∈ runS.visited := by
  refine ⟨?_, rfl, rfl, by decide⟩
  intro st urls t ht
  unfold schedule_rescan at ht
  refine foldl_inv (fun s => ∀ t2 ∈ s.tasks, t2 ∈ st.tasks ∨ t2.2 = 0)
    schedule_rescan_step (fun s a hs t2 h2 => ?_) urls st
    (fun t2 h2 => Or.inl h2) t ht
  unfold schedule_rescan_step at h2
  split_ifs at h2 with hcap hnew
  · exact hs t2 h2
  · dsimp only at h2
    rw [List.mem_append, List.mem_singleton] at h2
    rcases h2 with h2 | h2
    · exact hs t2 h2
    · subst h2
      exact Or.inr rfl
  · exact hs t2 h2

/-- C10 witness: a concrete rescan-created task sits at depth 0. -/
theorem C10_rescan_depth_zero_witness :
    ("http://x.com/a", 0) ∈ stW.tasks
    ∨ (("http://x.com/a", 0) : String × Nat).2 = 0 :=
  C10_rescan_depth_zero.1 stW ["http://x.com/a"] ("http://x.com/a", 0)
    (by decide)
